import Mathlib

/-!
Shallow embedding of the fluid-glass simulation in
`src/components/Simulation.tsx` together with the hand-status types from
`src/types.ts`.  Shader floats are modelled as real numbers; a texture is
modelled as its sampler, a total function from UV coordinates to the
sampled value.  The two fragment shaders (`SimulationShader`,
`DisplayShader`) and the per-frame driver logic in `useFrame` are
transcribed line by line below.
-/

namespace FluidGlass

/-- GLSL `clamp(x, lo, hi) = min(max(x, lo), hi)`. -/
noncomputable def clampG (x lo hi : ℝ) : ℝ := min (max x lo) hi

/-- GLSL `smoothstep(edge0, edge1, x)`:
`t := clamp((x - edge0)/(edge1 - edge0), 0, 1)` then `t*t*(3 - 2*t)`. -/
noncomputable def smoothstepG (edge0 edge1 x : ℝ) : ℝ :=
  let t := clampG ((x - edge0) / (edge1 - edge0)) 0 1
  t * t * (3 - 2 * t)

/-- GLSL `distance(p, q)` for 2-vectors: Euclidean distance. -/
noncomputable def distG (p q : ℝ × ℝ) : ℝ :=
  Real.sqrt ((p.1 - q.1) ^ 2 + (p.2 - q.2) ^ 2)

/-- GLSL `mix(x, y, a) = x*(1-a) + y*a`. -/
noncomputable def mixG (x y a : ℝ) : ℝ := x * (1 - a) + y * a

/-- GLSL `dot` for 3-vectors. -/
noncomputable def dotG (u v : ℝ × ℝ × ℝ) : ℝ :=
  u.1 * v.1 + u.2.1 * v.2.1 + u.2.2 * v.2.2

/-- GLSL `normalize` for 3-vectors: `v / length(v)`. -/
noncomputable def normalizeG (v : ℝ × ℝ × ℝ) : ℝ × ℝ × ℝ :=
  let len := Real.sqrt (v.1 ^ 2 + v.2.1 ^ 2 + v.2.2 ^ 2)
  (v.1 / len, v.2.1 / len, v.2.2 / len)

/-- A field texture, modelled by its sampler: UV coordinates to the scalar
stored in the red channel (the simulation writes the same value to every
channel). -/
def Field : Type := ℝ × ℝ → ℝ

/-- `vec2 texel = 1.0 / vec2(512.0, 512.0)` — the FBO resolution used by
`SimulationShader`. -/
noncomputable def texel : ℝ × ℝ := (1 / 512, 1 / 512)

/-- The brush line of `SimulationShader`:
`smoothstep(0.05, 0.0, distance(vUv, uMouse.xy)) * uMouse.z * uRippleStrength`. -/
noncomputable def brushTerm (vUv mouseXY : ℝ × ℝ) (force uRippleStrength : ℝ) : ℝ :=
  smoothstepG 0.05 0.0 (distG vUv mouseXY) * force * uRippleStrength

/-- The fragment shader of `SimulationShader`: per-cell field update.
`uMouse` packs `(x, y, force)`.  Returns the scalar written to every
color channel of the new cell. -/
noncomputable def simFragment (uPrev : Field) (uMouse : ℝ × ℝ × ℝ)
    (uViscosity uRippleStrength : ℝ) (vUv : ℝ × ℝ) : ℝ :=
  let top := uPrev (vUv.1, vUv.2 + texel.2)
  let bottom := uPrev (vUv.1, vUv.2 - texel.2)
  let left := uPrev (vUv.1 - texel.1, vUv.2)
  let right := uPrev (vUv.1 + texel.1, vUv.2)
  let current := (top + bottom + left + right) * 0.25
  let brush := brushTerm vUv (uMouse.1, uMouse.2.1) uMouse.2.2 uRippleStrength
  let current1 := current + brush
  let current2 := current1 * uViscosity
  current2

/-- One full simulation pass: the field written to the current FBO. -/
noncomputable def stepField (uPrev : Field) (uMouse : ℝ × ℝ × ℝ)
    (uViscosity uRippleStrength : ℝ) : Field :=
  fun vUv => simFragment uPrev uMouse uViscosity uRippleStrength vUv

/-- The Field Update Stage exactly as the spec words it:
`((top + bottom + left + right) / 4 + smoothstep(0.05, 0.0, dist) * force *
rippleStrength) * viscosity`. -/
noncomputable def specFieldUpdate (prev : Field) (pos : ℝ × ℝ)
    (force viscosity rippleStrength : ℝ) (uv : ℝ × ℝ) : ℝ :=
  ((prev (uv.1, uv.2 + texel.2) + prev (uv.1, uv.2 - texel.2) +
      prev (uv.1 - texel.1, uv.2) + prev (uv.1 + texel.1, uv.2)) / 4 +
    smoothstepG 0.05 0.0 (distG uv pos) * force * rippleStrength) * viscosity

/-- An RGBA color sample, one real per channel. -/
structure RGBA where
  r : ℝ
  g : ℝ
  b : ℝ
  a : ℝ

/-- A camera texture, modelled by its sampler. -/
def Tex : Type := ℝ × ℝ → RGBA

/-- The normal estimate of `DisplayShader`:
`normalize(vec3(hRight - height, hTop - height, 1.0))` with forward
differences at `offset = 0.01`. -/
noncomputable def surfaceNormal (uData : Field) (vUv : ℝ × ℝ) : ℝ × ℝ × ℝ :=
  let height := uData vUv
  let offset : ℝ := 0.01
  let hRight := uData (vUv.1 + offset, vUv.2)
  let hTop := uData (vUv.1, vUv.2 + offset)
  normalizeG (hRight - height, hTop - height, 1.0)

/-- The distorted and clamped UV of `DisplayShader`:
`clamp(vUv - normal.xy * uRefraction * uDistortion, 0.001, 0.999)`
componentwise. -/
noncomputable def distortedUv (uData : Field) (uRefraction uDistortion : ℝ)
    (vUv : ℝ × ℝ) : ℝ × ℝ :=
  let n := surfaceNormal uData vUv
  let d := (vUv.1 - n.1 * uRefraction * uDistortion,
            vUv.2 - n.2.1 * uRefraction * uDistortion)
  (clampG d.1 0.001 0.999, clampG d.2 0.001 0.999)

/-- Steps 5-7 of the display pass: `finalColor = camColor.rgb +
highlight * height` with `highlight = pow(max(0, light), 10) * uReflection`
and `light = dot(normal, normalize(vec3(0.5, 0.5, 1.0)))`.  Returns the
`vec3` before the chromatic-aberration branch. -/
noncomputable def baseColor (uTexture : Tex) (uData : Field)
    (uRefraction uReflection uDistortion : ℝ) (vUv : ℝ × ℝ) : ℝ × ℝ × ℝ :=
  let height := uData vUv
  let n := surfaceNormal uData vUv
  let duv := distortedUv uData uRefraction uDistortion vUv
  let camColor := uTexture duv
  let light := dotG n (normalizeG (0.5, 0.5, 1.0))
  let highlight := (max 0.0 light) ^ (10 : ℕ) * uReflection
  (camColor.r + highlight * height,
   camColor.g + highlight * height,
   camColor.b + highlight * height)

/-- The fragment shader of `DisplayShader`.  `uTime` is a declared uniform
of the shader and is threaded through even though the shader body never
reads it. -/
noncomputable def displayFragment (uTexture : Tex) (uData : Field)
    (uRefraction uReflection uDistortion uTime : ℝ) (vUv : ℝ × ℝ) : RGBA :=
  let height := uData vUv
  let duv := distortedUv uData uRefraction uDistortion vUv
  let fc := baseColor uTexture uData uRefraction uReflection uDistortion vUv
  if height > 0.1 then
    let r := (uTexture (duv.1 + 0.002, duv.2)).r
    let b := (uTexture (duv.1 - 0.002, duv.2)).b
    ⟨mixG fc.1 r 0.5, fc.2.1, mixG fc.2.2 b 0.5, 1.0⟩
  else
    ⟨fc.1, fc.2.1, fc.2.2, 1.0⟩

/-- `FluidParams` from `src/types.ts`. -/
structure FluidParams where
  reflectionIntensity : ℝ
  refractionIndex : ℝ
  distortionStrength : ℝ
  waveHeight : ℝ
  speed : ℝ
  rippleStrength : ℝ
  viscosity : ℝ

/-- `HandStatus` from `src/types.ts`. -/
structure HandStatus where
  detected : Bool
  pinching : Bool
  distance : ℝ
  position : ℝ × ℝ

/-- The hand-to-disturbance mapping inside `useFrame`:
`mouseX = detected ? position.x : -1`,
`mouseY = detected ? 1 - position.y : -1`,
`force = pinching ? 1.0 : (detected ? 0.2 : 0.0)`,
packed into the `uMouse` uniform as `(x, y, force)`. -/
noncomputable def mapHand (h : HandStatus) : ℝ × ℝ × ℝ :=
  let mouseX : ℝ := if h.detected then h.position.1 else -1
  let mouseY : ℝ := if h.detected then 1.0 - h.position.2 else -1
  let force : ℝ := if h.pinching then 1.0 else if h.detected then 0.2 else 0.0
  (mouseX, mouseY, force)

/-- Names for the two FBOs of the ping-pong pair. -/
inductive BufId where
  | A : BufId
  | B : BufId
deriving DecidableEq

/-- The buffer that is not the given one. -/
def otherBuf : BufId → BufId
  | BufId.A => BufId.B
  | BufId.B => BufId.A

/-- `currentFBO = swap ? fboA : fboB` — the buffer written this frame and
fed to the display pass. -/
def currentId (swap : Bool) : BufId := if swap then BufId.A else BufId.B

/-- `prevFBO = swap ? fboB : fboA` — the buffer read this frame. -/
def prevId (swap : Bool) : BufId := if swap then BufId.B else BufId.A

/-- The swap flag at frame `n`, starting from `s0`; `useFrame` negates it
once per frame (`swap.current = !swap.current`). -/
def swapAt (s0 : Bool) : ℕ → Bool
  | 0 => s0
  | n + 1 => !(swapAt s0 n)

/-- The buffer the Field Update Stage of frame `n` writes. -/
def writeIdAt (s0 : Bool) (n : ℕ) : BufId := currentId (swapAt s0 n)

/-- The buffer the Field Update Stage of frame `n` reads. -/
def readIdAt (s0 : Bool) (n : ℕ) : BufId := prevId (swapAt s0 n)

/-- The buffer the Display Compositor of frame `n` reads
(`uniforms.uData.value = currentFBO.texture`). -/
def displayIdAt (s0 : Bool) (n : ℕ) : BufId := currentId (swapAt s0 n)

/-- The mutable state held across frames: the contents of the two FBOs and
the swap flag. -/
structure SimState where
  bufA : Field
  bufB : Field
  swap : Bool

/-- The field sampled as `uPrev` this frame (`prevFBO`). -/
def readBuf (st : SimState) : Field :=
  if st.swap then st.bufB else st.bufA

/-- One tick of `useFrame` restricted to simulation state: render the
simulation shader into `currentFBO` reading `prevFBO`, then flip the swap
flag. -/
noncomputable def frameStep (p : FluidParams) (h : HandStatus)
    (st : SimState) : SimState :=
  let prev := readBuf st
  let newF := stepField prev (mapHand h) p.viscosity p.rippleStrength
  ⟨if st.swap then newF else st.bufA,
   if st.swap then st.bufB else newF,
   !st.swap⟩

/-- The display output of one tick of `useFrame`: the display shader runs
with `uData = currentFBO.texture` (the buffer just written),
`uRefraction = params.refractionIndex`, `uReflection =
params.reflectionIntensity`, `uDistortion = params.distortionStrength`
and `uTime = elapsedTime * params.speed`. -/
noncomputable def frameDisplay (p : FluidParams) (h : HandStatus)
    (st : SimState) (uTexture : Tex) (elapsedTime : ℝ) : ℝ × ℝ → RGBA :=
  let newF := stepField (readBuf st) (mapHand h) p.viscosity p.rippleStrength
  fun vUv =>
    displayFragment uTexture newF p.refractionIndex p.reflectionIntensity
      p.distortionStrength (elapsedTime * p.speed) vUv

/-- A field that is 1 on the horizontal line `y = 0.5` and 0 elsewhere. -/
noncomputable def rowField : Field :=
  fun p => if p.2 = 0.5 then 1 else 0

/-- A uniform field of height 0.2 (above the chromatic threshold 0.1). -/
noncomputable def flatField : Field := fun _ => 0.2

/-- The all-zero field. -/
noncomputable def zeroField : Field := fun _ => 0

/-- A constant black camera image. -/
noncomputable def texIn : Tex := fun _ => ⟨0, 0, 0, 1⟩

/-- A camera image that is black on every UV with `x ≤ 1` — in particular
on the whole image square `[0,1]²` — and red beyond it. -/
noncomputable def texOut : Tex :=
  fun p => if p.1 ≤ 1 then ⟨0, 0, 0, 1⟩ else ⟨1, 0, 0, 1⟩

/-- A constant grey camera image. -/
noncomputable def greyTex : Tex := fun _ => ⟨0.3, 0.4, 0.5, 1⟩

/-- A `HandStatus` with `pinching` set but `detected` clear. -/
noncomputable def ghostHand : HandStatus := ⟨false, true, 0, (0.3, 0.4)⟩

/-- A detected, pinching `HandStatus` at position (0.3, 0.4). -/
noncomputable def pinchHand : HandStatus := ⟨true, true, 0, (0.3, 0.4)⟩

section Helpers

lemma clampG_le {x lo hi : ℝ} (h : lo ≤ hi) : clampG x lo hi ≤ hi :=
  min_le_right _ _

lemma le_clampG {x lo hi : ℝ} (h : lo ≤ hi) : lo ≤ clampG x lo hi :=
  le_min (le_max_right x lo) h

lemma smoothstepG_nonneg (e0 e1 x : ℝ) : 0 ≤ smoothstepG e0 e1 x := by
  unfold smoothstepG clampG
  have h0 : 0 ≤ min (max ((x - e0) / (e1 - e0)) 0) 1 :=
    le_min (le_max_right _ 0) zero_le_one
  have h1 : min (max ((x - e0) / (e1 - e0)) 0) 1 ≤ 1 := min_le_right _ 1
  nlinarith

lemma smoothstepG_eq_zero {x : ℝ} (hx : 0.05 ≤ x) :
    smoothstepG 0.05 0.0 x = 0 := by
  unfold smoothstepG clampG
  have h1 : (x - 0.05) / (0.0 - 0.05) ≤ 0 := by
    apply div_nonpos_of_nonneg_of_nonpos <;> linarith
  rw [max_eq_right h1]
  norm_num

lemma distG_nonneg (p q : ℝ × ℝ) : 0 ≤ distG p q := Real.sqrt_nonneg _

end Helpers

/-- C1: the Field Update Stage computes exactly
`((top + bottom + left + right) / 4 + smoothstep(0.05, 0.0, dist) * force *
rippleStrength) * viscosity`, with the decay factor applied after brush
injection, for every previous field, disturbance, viscosity and ripple
strength. -/
theorem field_update_formula (prev : Field) (px py force viscosity rippleStrength : ℝ)
    (uv : ℝ × ℝ) :
    simFragment prev (px, py, force) viscosity rippleStrength uv =
      specFieldUpdate prev (px, py) force viscosity rippleStrength uv := by
  simp only [simFragment, specFieldUpdate, brushTerm]
  ring

/-- C3 counterexample: the claim says a record with `detected = false` is
mapped to force 0, but on the record `ghostHand` (`detected = false`,
`pinching = true`) the mapper produces force 1. -/
theorem mapper_force_cex :
    ghostHand.detected = false ∧ (mapHand ghostHand).2.2 = 1 ∧ (1 : ℝ) ≠ 0 := by
  refine ⟨rfl, ?_, by norm_num⟩
  norm_num [mapHand, ghostHand]

/-- C3 amended: the mapper sends a non-detected record to the sentinel
position (−1, −1) and a detected one to (x, 1 − y); the force is 1.0
whenever `pinching` is set (even with `detected = false`), 0.2 when
detected but not pinching, and 0 otherwise. -/
theorem mapper_amended (h : HandStatus) :
    (h.detected = false → (mapHand h).1 = -1 ∧ (mapHand h).2.1 = -1) ∧
    (h.detected = true →
      (mapHand h).1 = h.position.1 ∧ (mapHand h).2.1 = 1 - h.position.2) ∧
    (h.pinching = true → (mapHand h).2.2 = 1) ∧
    (h.pinching = false → h.detected = true → (mapHand h).2.2 = 0.2) ∧
    (h.pinching = false → h.detected = false → (mapHand h).2.2 = 0) := by
  cases hd : h.detected <;> cases hp : h.pinching <;>
    norm_num [mapHand, hd, hp]

/-- C3 amended, witness: on `pinchHand` the mapper keeps the x coordinate
0.3 and produces force 1. -/
theorem mapper_amended_w :
    (mapHand pinchHand).1 = 0.3 ∧ (mapHand pinchHand).2.2 = 1 := by
  refine ⟨?_, (mapper_amended pinchHand).2.2.1 rfl⟩
  exact ((mapper_amended pinchHand).2.1 rfl).1

/-- C5: a disturbance at P with positive force contributes exactly zero
brush at any cell farther than 0.05 from P (for any ripple strength), the
updated cell value there coincides with the force-0 update, and the
sentinel position (−1, −1) is farther than 0.05 from every cell of the
unit square, so it contributes zero brush everywhere. -/
theorem brush_locality (P : ℝ × ℝ) (force rippleStrength : ℝ)
    (hf : 0 < force) :
    (∀ uv : ℝ × ℝ, 0.05 < distG uv P →
      brushTerm uv P force rippleStrength = 0) ∧
    (∀ (F : Field) (viscosity : ℝ) (uv : ℝ × ℝ), 0.05 < distG uv P →
      simFragment F (P.1, P.2, force) viscosity rippleStrength uv =
        simFragment F (P.1, P.2, 0) viscosity rippleStrength uv) ∧
    (∀ uv : ℝ × ℝ, 0 ≤ uv.1 → uv.1 ≤ 1 → 0 ≤ uv.2 → uv.2 ≤ 1 →
      0.05 < distG uv (-1, -1) ∧
      brushTerm uv (-1, -1) force rippleStrength = 0) := by
  have hsent : ∀ uv : ℝ × ℝ, 0 ≤ uv.1 → uv.1 ≤ 1 → 0 ≤ uv.2 → uv.2 ≤ 1 →
      0.05 < distG uv (-1, -1) := by
    intro uv h0 h1 h2 h3
    have hone : (1 : ℝ) ≤ distG uv (-1, -1) := by
      unfold distG
      calc (1 : ℝ) = Real.sqrt 1 := Real.sqrt_one.symm
        _ ≤ Real.sqrt ((uv.1 - (-1, -1).1) ^ 2 + (uv.2 - (-1, -1).2) ^ 2) :=
          Real.sqrt_le_sqrt (by simp only []; nlinarith)
    linarith
  refine ⟨?_, ?_, ?_⟩
  · intro uv hd
    unfold brushTerm
    rw [smoothstepG_eq_zero (le_of_lt hd)]
    ring
  · intro F viscosity uv hd
    simp only [simFragment, brushTerm, Prod.mk.eta]
    rw [smoothstepG_eq_zero (le_of_lt hd)]
    ring_nf
  · intro uv h0 h1 h2 h3
    refine ⟨hsent uv h0 h1 h2 h3, ?_⟩
    unfold brushTerm
    rw [smoothstepG_eq_zero (le_of_lt (hsent uv h0 h1 h2 h3))]
    ring

/-- C5 witness: the cell (0, 0) lies at distance √2 > 0.05 from a
disturbance at (1, 1), and indeed receives zero brush. -/
theorem brush_locality_w :
    brushTerm ((0 : ℝ), (0 : ℝ)) (1, 1) 1 0.7 = 0 := by
  apply (brush_locality (1, 1) 1 0.7 (by norm_num)).1
  have h2 : distG ((0 : ℝ), (0 : ℝ)) (1, 1) = Real.sqrt 2 := by
    unfold distG
    norm_num
  rw [h2]
  have hone : (1 : ℝ) ≤ Real.sqrt 2 := by
    calc (1 : ℝ) = Real.sqrt 1 := Real.sqrt_one.symm
      _ ≤ Real.sqrt 2 := Real.sqrt_le_sqrt (by norm_num)
  linarith

/-- C2: across frames, frame N+1 reads exactly the buffer frame N wrote;
within one frame the update reads the one buffer and writes the other
(`readIdAt = otherBuf writeIdAt`); the display pass of frame N reads the
buffer frame N wrote; and at the level of contents, the field sampled as
`uPrev` after a tick is exactly the field that tick's update produced from
its own read-only `uPrev`. -/
theorem pingpong_buffers :
    (∀ (s0 : Bool) (n : ℕ), readIdAt s0 (n + 1) = writeIdAt s0 n) ∧
    (∀ (s0 : Bool) (n : ℕ), readIdAt s0 n = otherBuf (writeIdAt s0 n)) ∧
    (∀ (s0 : Bool) (n : ℕ), displayIdAt s0 n = writeIdAt s0 n) ∧
    (∀ (p : FluidParams) (h : HandStatus) (st : SimState),
      readBuf (frameStep p h st) =
        stepField (readBuf st) (mapHand h) p.viscosity p.rippleStrength) := by
  refine ⟨?_, ?_, ?_, ?_⟩
  · intro s0 n
    cases h : swapAt s0 n <;>
      simp [readIdAt, writeIdAt, swapAt, prevId, currentId, h]
  · intro s0 n
    cases h : swapAt s0 n <;>
      simp [readIdAt, writeIdAt, prevId, currentId, otherBuf, h]
  · intro s0 n
    rfl
  · intro p h st
    cases hs : st.swap <;> simp [readBuf, frameStep, hs]

/-- The update of a uniform field with zero force is the uniform field
scaled by the viscosity. -/
lemma stepField_const (c mx my viscosity rippleStrength : ℝ) :
    stepField (fun _ => c) (mx, my, 0) viscosity rippleStrength =
      fun _ => c * viscosity := by
  funext uv
  simp only [stepField, simFragment, brushTerm]
  ring

/-- Iterating the zero-disturbance update from a uniform field scales it
by one viscosity factor per frame. -/
lemma stepField_const_iterate (v0 mx my viscosity rippleStrength : ℝ) :
    ∀ k : ℕ,
      (fun F => stepField F (mx, my, 0) viscosity rippleStrength)^[k]
          (fun _ => v0) = fun _ => v0 * viscosity ^ k := by
  intro k
  induction k with
  | zero => funext uv; simp
  | succ k ih =>
      rw [Function.iterate_succ_apply', ih, stepField_const]
      funext uv
      ring

/-- C4 counterexample: with zero disturbance, a cell does not in general
decay from `v0` to `v0 * viscosity`: on `rowField` the cell (0.5, 0.5)
holds 1, but after one update it holds 0.48 rather than
`1 * 0.96 = 0.96` (its new value is the neighbour average times the
viscosity). -/
theorem per_cell_decay_cex :
    rowField (0.5, 0.5) = 1 ∧
    simFragment rowField (-1, -1, 0) 0.96 0.6 (0.5, 0.5) = 0.48 ∧
    (0.48 : ℝ) ≠ 1 * 0.96 := by
  refine ⟨by norm_num [rowField], ?_, by norm_num⟩
  simp only [simFragment, brushTerm, rowField, texel]
  norm_num

/-- C4 amended: starting from a *uniform* field, zero-force disturbance
input multiplies every cell by the viscosity each frame, so after k frames
every cell holds `v0 * viscosity ^ k`; an all-0.5 field with viscosity
0.96 is uniformly 0.48 after one frame; and `v0 * viscosity ^ k → 0` for
`0 ≤ viscosity < 1`. -/
theorem uniform_decay :
    (∀ (v0 viscosity rippleStrength mx my : ℝ) (k : ℕ) (uv : ℝ × ℝ),
      (fun F => stepField F (mx, my, 0) viscosity rippleStrength)^[k]
          (fun _ => v0) uv = v0 * viscosity ^ k) ∧
    (∀ uv : ℝ × ℝ,
      stepField (fun _ => (0.5 : ℝ)) (-1, -1, 0) 0.96 0.6 uv = 0.48) ∧
    (∀ v0 viscosity : ℝ, 0 ≤ viscosity → viscosity < 1 →
      Filter.Tendsto (fun k : ℕ => v0 * viscosity ^ k)
        Filter.atTop (nhds 0)) := by
  refine ⟨?_, ?_, ?_⟩
  · intro v0 viscosity rippleStrength mx my k uv
    rw [stepField_const_iterate]
  · intro uv
    have h := congrFun (stepField_const 0.5 (-1) (-1) 0.96 0.6) uv
    rw [h]
    norm_num
  · intro v0 viscosity h0 h1
    have hp : Filter.Tendsto (fun k : ℕ => viscosity ^ k)
        Filter.atTop (nhds 0) :=
      tendsto_pow_atTop_nhds_zero_of_lt_one h0 h1
    simpa using hp.const_mul v0

/-- C4 amended, witness: the concrete scenario of the claim — viscosity
0.96, uniform 0.5 field, zero disturbance — yields 0.48 at a sample cell
after one frame, and the decay sequence tends to 0. -/
theorem uniform_decay_w :
    (0 : ℝ) ≤ 0.96 ∧ (0.96 : ℝ) < 1 ∧
    stepField (fun _ => (0.5 : ℝ)) (-1, -1, 0) 0.96 0.6 (0.25, 0.75) = 0.48 ∧
    Filter.Tendsto (fun k : ℕ => 0.5 * (0.96 : ℝ) ^ k)
      Filter.atTop (nhds 0) :=
  ⟨by norm_num, by norm_num, uniform_decay.2.1 (0.25, 0.75),
    uniform_decay.2.2 0.5 0.96 (by norm_num) (by norm_num)⟩

/-- C6 amended: the clamped `distortedUv` always lies in
`[0.001, 0.999]²` — for every field, refraction and distortion, hence for
every possible normal — so the main camera sample is in bounds; the two
chromatic-fringe sample abscissae `distortedUv.x ± 0.002` are only
guaranteed to lie in `[−0.001, 1.001]` and can leave the image square. -/
theorem distorted_uv_bounds (uData : Field) (uRefraction uDistortion : ℝ)
    (uv : ℝ × ℝ) :
    0.001 ≤ (distortedUv uData uRefraction uDistortion uv).1 ∧
    (distortedUv uData uRefraction uDistortion uv).1 ≤ 0.999 ∧
    0.001 ≤ (distortedUv uData uRefraction uDistortion uv).2 ∧
    (distortedUv uData uRefraction uDistortion uv).2 ≤ 0.999 ∧
    (distortedUv uData uRefraction uDistortion uv).1 + 0.002 ≤ 1.001 ∧
    -0.001 ≤ (distortedUv uData uRefraction uDistortion uv).1 - 0.002 := by
  have h1 : 0.001 ≤ (distortedUv uData uRefraction uDistortion uv).1 :=
    le_clampG (by norm_num)
  have h2 : (distortedUv uData uRefraction uDistortion uv).1 ≤ 0.999 :=
    clampG_le (by norm_num)
  have h3 : 0.001 ≤ (distortedUv uData uRefraction uDistortion uv).2 :=
    le_clampG (by norm_num)
  have h4 : (distortedUv uData uRefraction uDistortion uv).2 ≤ 0.999 :=
    clampG_le (by norm_num)
  exact ⟨h1, h2, h3, h4, by linarith, by linarith⟩

/-- `texIn` and `texOut` agree at every UV of the image square (indeed at
every UV with `x ≤ 1`); they differ only beyond the right image edge. -/
lemma texIn_eq_texOut_on_square (p : ℝ × ℝ) (hp : p.1 ≤ 1) :
    texIn p = texOut p := by
  simp [texIn, texOut, hp]

/-- The distorted UV of the uniform 0.2 field at `vUv = (1, 0.5)` with
zero refraction is the clamped `(0.999, 0.5)`. -/
lemma distortedUv_flat :
    distortedUv flatField 0 0 (1, 0.5) = (0.999, 0.5) := by
  have hc1 : clampG (1 : ℝ) 0.001 0.999 = 0.999 := by
    unfold clampG
    rw [max_eq_left (by norm_num), min_eq_right (by norm_num)]
  have hc2 : clampG (0.5 : ℝ) 0.001 0.999 = 0.5 := by
    unfold clampG
    rw [max_eq_left (by norm_num), min_eq_left (by norm_num)]
  simp only [distortedUv]
  rw [show ((1, 0.5) : ℝ × ℝ).1 -
        (surfaceNormal flatField (1, 0.5)).1 * 0 * 0 = 1 by ring,
      show ((1, 0.5) : ℝ × ℝ).2 -
        (surfaceNormal flatField (1, 0.5)).2.1 * 0 * 0 = 0.5 by ring,
      hc1, hc2]

/-- C6 counterexample: on the uniform 0.2 field at the right edge, the
chromatic-fringe branch is active (height 0.2 > 0.1) and samples the
camera image at abscissa 0.999 + 0.002 > 1; two camera images that agree
at every UV of the image square (`texIn`, `texOut`, see
`texIn_eq_texOut_on_square`) therefore produce different display outputs,
so the camera image is sampled outside its bounds. -/
theorem fringe_oob_cex :
    flatField (1, 0.5) > 0.1 ∧
    (distortedUv flatField 0 0 (1, 0.5)).1 + 0.002 > 1 ∧
    displayFragment texOut flatField 0 0 0 0 (1, 0.5) ≠
      displayFragment texIn flatField 0 0 0 0 (1, 0.5) := by
  refine ⟨by norm_num [flatField], by rw [distortedUv_flat]; norm_num, ?_⟩
  have hout : displayFragment texOut flatField 0 0 0 0 (1, 0.5) =
      ⟨0.5, 0, 0, 1⟩ := by
    simp only [displayFragment, baseColor, distortedUv_flat, flatField,
      texOut, mixG]
    norm_num
  have hin : displayFragment texIn flatField 0 0 0 0 (1, 0.5) =
      ⟨0, 0, 0, 1⟩ := by
    simp only [displayFragment, baseColor, distortedUv_flat, flatField,
      texIn, mixG]
    norm_num
  rw [hout, hin]
  intro h
  have h1 := congrArg RGBA.r h
  norm_num at h1

/-- C7: when the sampled height is ≤ 0.1 the output channels are exactly
the step-7 color `camColor.rgb + highlight * height` (no chromatic
blend); when the height exceeds 0.1 the red and blue channels are 50/50
mixes with camera samples taken at horizontal UV offsets +0.002 and
−0.002 respectively, and the green channel is the step-7 green in both
cases. -/
theorem fringe_gating (uTexture : Tex) (uData : Field)
    (uRefraction uReflection uDistortion uTime : ℝ) (vUv : ℝ × ℝ) :
    (uData vUv ≤ 0.1 →
      displayFragment uTexture uData uRefraction uReflection uDistortion
          uTime vUv =
        ⟨(baseColor uTexture uData uRefraction uReflection uDistortion vUv).1,
         (baseColor uTexture uData uRefraction uReflection uDistortion vUv).2.1,
         (baseColor uTexture uData uRefraction uReflection uDistortion vUv).2.2,
         1.0⟩) ∧
    (0.1 < uData vUv →
      displayFragment uTexture uData uRefraction uReflection uDistortion
          uTime vUv =
        ⟨mixG (baseColor uTexture uData uRefraction uReflection uDistortion vUv).1
            (uTexture ((distortedUv uData uRefraction uDistortion vUv).1 + 0.002,
                       (distortedUv uData uRefraction uDistortion vUv).2)).r 0.5,
         (baseColor uTexture uData uRefraction uReflection uDistortion vUv).2.1,
         mixG (baseColor uTexture uData uRefraction uReflection uDistortion vUv).2.2
            (uTexture ((distortedUv uData uRefraction uDistortion vUv).1 - 0.002,
                       (distortedUv uData uRefraction uDistortion vUv).2)).b 0.5,
         1.0⟩) := by
  constructor
  · intro hle
    simp only [displayFragment]
    rw [if_neg (not_lt.mpr hle)]
  · intro hgt
    simp only [displayFragment]
    rw [if_pos hgt]

/-- C7 witness: on the all-zero field (height 0 ≤ 0.1) over a constant
grey camera image, the output is exactly the camera color — no chromatic
blend. -/
theorem fringe_gating_w :
    zeroField (0.5, 0.5) ≤ 0.1 ∧
    displayFragment greyTex zeroField 0.1 0.5 1 0 (0.5, 0.5) =
      ⟨0.3, 0.4, 0.5, 1.0⟩ := by
  have h := (fringe_gating greyTex zeroField 0.1 0.5 1 0 (0.5, 0.5)).1
    (by norm_num [zeroField])
  refine ⟨by norm_num [zeroField], ?_⟩
  rw [h]
  have hb : baseColor greyTex zeroField 0.1 0.5 1 (0.5, 0.5) =
      (0.3, 0.4, 0.5) := by
    simp [baseColor, zeroField, greyTex]
  rw [hb]

/-- C8: the per-pixel display output is fully determined by the current
field, the camera image and the scalar parameters (refraction,
reflection, distortion): two runs agreeing on those inputs agree on every
pixel, whatever the remaining uniform `uTime` holds in each run. -/
theorem display_deterministic (uTexture : Tex) (uData : Field)
    (uRefraction uReflection uDistortion t1 t2 : ℝ) (vUv : ℝ × ℝ) :
    displayFragment uTexture uData uRefraction uReflection uDistortion
        t1 vUv =
      displayFragment uTexture uData uRefraction uReflection uDistortion
        t2 vUv := rfl

/-- `p` with its `waveHeight` and `speed` fields replaced by `w` and `s`. -/
def setSpeedWave (p : FluidParams) (s w : ℝ) : FluidParams :=
  ⟨p.reflectionIntensity, p.refractionIndex, p.distortionStrength, w, s,
   p.rippleStrength, p.viscosity⟩

/-- C9: the rendered output and the updated simulation state are
independent of the `speed` and `waveHeight` parameters: `uTime` (the only
uniform derived from `speed`) is never read by the display shader, and
`waveHeight` is never read anywhere, so changing the two fields changes
neither the frame's display output nor the new buffer state. -/
theorem speed_waveHeight_independent (p : FluidParams) (s w : ℝ)
    (h : HandStatus) (st : SimState) (uTexture : Tex) (elapsedTime : ℝ) :
    frameDisplay (setSpeedWave p s w) h st uTexture elapsedTime =
      frameDisplay p h st uTexture elapsedTime ∧
    frameStep (setSpeedWave p s w) h st = frameStep p h st :=
  ⟨rfl, rfl⟩

/-- The per-cell update maps a nonnegative field to a nonnegative value
whenever force, ripple strength and viscosity are nonnegative. -/
lemma simFragment_nonneg (F : Field) (mx my force viscosity rippleStrength : ℝ)
    (hF : ∀ p, 0 ≤ F p) (hforce : 0 ≤ force) (hrip : 0 ≤ rippleStrength)
    (hvisc : 0 ≤ viscosity) (uv : ℝ × ℝ) :
    0 ≤ simFragment F (mx, my, force) viscosity rippleStrength uv := by
  simp only [simFragment, brushTerm]
  have h1 := hF (uv.1, uv.2 + texel.2)
  have h2 := hF (uv.1, uv.2 - texel.2)
  have h3 := hF (uv.1 - texel.1, uv.2)
  have h4 := hF (uv.1 + texel.1, uv.2)
  have hb : 0 ≤ smoothstepG 0.05 0.0 (distG uv (mx, my)) * force *
      rippleStrength :=
    mul_nonneg (mul_nonneg (smoothstepG_nonneg _ _ _) hforce) hrip
  refine mul_nonneg ?_ hvisc
  nlinarith

/-- C10: nonnegativity is an invariant of the Field Update Stage — a
nonnegative previous field with nonnegative force, ripple strength and
viscosity yields a nonnegative cell everywhere — and consequently every
iterate starting from the all-zero field is nonnegative. -/
theorem field_nonneg_invariant :
    (∀ (F : Field) (mx my force viscosity rippleStrength : ℝ) (uv : ℝ × ℝ),
      (∀ p, 0 ≤ F p) → 0 ≤ force → 0 ≤ rippleStrength → 0 ≤ viscosity →
      0 ≤ simFragment F (mx, my, force) viscosity rippleStrength uv) ∧
    (∀ (mx my force viscosity rippleStrength : ℝ),
      0 ≤ force → 0 ≤ rippleStrength → 0 ≤ viscosity →
      ∀ (k : ℕ) (uv : ℝ × ℝ),
        0 ≤ (fun F => stepField F (mx, my, force) viscosity
              rippleStrength)^[k] zeroField uv) := by
  refine ⟨fun F mx my force visc rip uv hF hf hr hv =>
    simFragment_nonneg F mx my force visc rip hF hf hr hv uv, ?_⟩
  intro mx my force visc rip hf hr hv k
  induction k with
  | zero =>
      intro uv
      simp [zeroField]
  | succ k ih =>
      intro uv
      rw [Function.iterate_succ_apply']
      exact simFragment_nonneg _ mx my force visc rip ih hf hr hv uv

/-- C10 witness: a full-force pinch on the all-zero field with the
default viscosity and ripple strength writes a nonnegative value at the
disturbed cell. -/
theorem field_nonneg_invariant_w :
    0 ≤ simFragment zeroField (0.5, 0.5, 1) 0.96 0.6 (0.5, 0.5) :=
  field_nonneg_invariant.1 zeroField 0.5 0.5 1 0.96 0.6 (0.5, 0.5)
    (fun _ => le_refl 0) (by norm_num) (by norm_num) (by norm_num)

end FluidGlass
